import Mathlib

/-!
Shallow embedding of the workflow execution engine
(`src/engine/state.py`, `src/engine/registry.py`, `src/engine/graph.py`,
`src/engine/job_tracker.py`, `src/engine/websocket_manager.py`,
`src/engine/async_graph.py`, and the loop-control node of
`src/workflows/summarization/nodes_upgraded.py`).

Modelling conventions:
* Python `int` is embedded as `Int` (unbounded); counters that are always
  nonnegative in the engine (iteration counts, node tallies) use `Nat`.
* Python `dict` is embedded as an association list with first-match lookup;
  the engine only ever builds dicts with unique keys.
* A node function may raise, so a registered node is embedded as
  `WorkflowState → Except String WorkflowState` (`Except.error` = raise).
* Wall-clock data (timestamps, durations) carried by log entries is not
  modelled; a log entry keeps the node name and the 1-based iteration index.
* Python float truncation `int((c / t) * 100)` in the job tracker is
  embedded as exact floor division `c * 100 / t` on `Nat`.
-/

namespace Engine

/-- First-match lookup in an association list, the embedding of Python
`dict` access (`d[k]` / `k in d`). -/
def assocFind {β : Type} (l : List (String × β)) (k : String) : Option β :=
  match l with
  | [] => none
  | (k', v) :: rest => if k' = k then some v else assocFind rest k

/-- The workflow state record (`WorkflowState` in `src/engine/state.py`).
The free-form `execution_metadata` bag is embedded with string values,
which is all the engine itself ever relies on. -/
structure WorkflowState where
  text : String := ""
  max_length : Int := 100
  chunk_size : Int := 50
  chunks : List String := []
  chunk_summaries : List String := []
  merged_summary : String := ""
  refined_summary : String := ""
  current_length : Int := 0
  refinement_iterations : Int := 0
  max_refinement_iterations : Int := 5
  execution_metadata : List (String × String) := []
  deriving Repr, DecidableEq

/-- A value stored in the dictionary produced by `model_dump`. -/
inductive FieldVal where
  | str (s : String)
  | int (i : Int)
  | strList (l : List String)
  | meta (m : List (String × String))
  deriving Repr, DecidableEq

/-- `WorkflowState.model_dump`: the state as a field-name-keyed dictionary
(in declaration order, as pydantic produces it). -/
def model_dump (s : WorkflowState) : List (String × FieldVal) :=
  [ ("text", .str s.text),
    ("max_length", .int s.max_length),
    ("chunk_size", .int s.chunk_size),
    ("chunks", .strList s.chunks),
    ("chunk_summaries", .strList s.chunk_summaries),
    ("merged_summary", .str s.merged_summary),
    ("refined_summary", .str s.refined_summary),
    ("current_length", .int s.current_length),
    ("refinement_iterations", .int s.refinement_iterations),
    ("max_refinement_iterations", .int s.max_refinement_iterations),
    ("execution_metadata", .meta s.execution_metadata) ]

/-- The `**updates` keyword dictionary accepted by `copy_with_updates`:
an optional new value per state field. -/
structure StateUpdates where
  text : Option String := none
  max_length : Option Int := none
  chunk_size : Option Int := none
  chunks : Option (List String) := none
  chunk_summaries : Option (List String) := none
  merged_summary : Option String := none
  refined_summary : Option String := none
  current_length : Option Int := none
  refinement_iterations : Option Int := none
  max_refinement_iterations : Option Int := none
  execution_metadata : Option (List (String × String)) := none

/-- The update value, if any, that `updates` holds for field `k`. -/
def updatesAt (u : StateUpdates) (k : String) : Option FieldVal :=
  if k = "text" then u.text.map .str
  else if k = "max_length" then u.max_length.map .int
  else if k = "chunk_size" then u.chunk_size.map .int
  else if k = "chunks" then u.chunks.map .strList
  else if k = "chunk_summaries" then u.chunk_summaries.map .strList
  else if k = "merged_summary" then u.merged_summary.map .str
  else if k = "refined_summary" then u.refined_summary.map .str
  else if k = "current_length" then u.current_length.map .int
  else if k = "refinement_iterations" then u.refinement_iterations.map .int
  else if k = "max_refinement_iterations" then u.max_refinement_iterations.map .int
  else if k = "execution_metadata" then u.execution_metadata.map .meta
  else none

/-- `current_data.update(updates)`: every key of the dump that `updates`
names is overwritten, the rest are kept. -/
def dictUpdate (d : List (String × FieldVal)) (u : StateUpdates) :
    List (String × FieldVal) :=
  d.map (fun kv => (kv.1, (updatesAt u kv.1).getD kv.2))

/-- Typed extraction helpers used when rebuilding the state from the
updated dictionary (`WorkflowState(**current_data)`). -/
def lookupStr (d : List (String × FieldVal)) (k : String) : Option String :=
  match assocFind d k with
  | some (.str s) => some s
  | _ => none

def lookupInt (d : List (String × FieldVal)) (k : String) : Option Int :=
  match assocFind d k with
  | some (.int i) => some i
  | _ => none

def lookupStrList (d : List (String × FieldVal)) (k : String) :
    Option (List String) :=
  match assocFind d k with
  | some (.strList l) => some l
  | _ => none

def lookupMeta (d : List (String × FieldVal)) (k : String) :
    Option (List (String × String)) :=
  match assocFind d k with
  | some (.meta m) => some m
  | _ => none

/-- `WorkflowState(**current_data)`: rebuild a state from the dictionary,
falling back to the pydantic field defaults for a missing key (in the
`copy_with_updates` pipeline every key is always present). -/
def buildState (d : List (String × FieldVal)) : WorkflowState where
  text := (lookupStr d "text").getD ""
  max_length := (lookupInt d "max_length").getD 100
  chunk_size := (lookupInt d "chunk_size").getD 50
  chunks := (lookupStrList d "chunks").getD []
  chunk_summaries := (lookupStrList d "chunk_summaries").getD []
  merged_summary := (lookupStr d "merged_summary").getD ""
  refined_summary := (lookupStr d "refined_summary").getD ""
  current_length := (lookupInt d "current_length").getD 0
  refinement_iterations := (lookupInt d "refinement_iterations").getD 0
  max_refinement_iterations := (lookupInt d "max_refinement_iterations").getD 5
  execution_metadata := (lookupMeta d "execution_metadata").getD []

/-- `WorkflowState.copy_with_updates` (`src/engine/state.py`, lines 56-68):
dump the current state, apply the keyword updates, rebuild. -/
def copy_with_updates (s : WorkflowState) (u : StateUpdates) : WorkflowState :=
  buildState (dictUpdate (model_dump s) u)

/-- A registered node function: takes a state, returns a state or raises
(`Except.error` embeds a raised Python exception, carrying its text). -/
abbrev NodeFunc : Type := WorkflowState → Except String WorkflowState

/-- The `_nodes` map of `NodeRegistry` (`src/engine/registry.py`).
The auxiliary `_tools` map is not involved in any claim and is omitted. -/
abbrev Registry : Type := List (String × NodeFunc)

/-- `NodeRegistry.register_node`: reject a name already present, otherwise
bind it.  On rejection the registry value is unchanged (the caller keeps
the original list). -/
def register_node (reg : Registry) (name : String) (f : NodeFunc) :
    Except String Registry :=
  if (assocFind reg name).isSome then
    .error "Node is already registered"
  else
    .ok (reg ++ [(name, f)])

/-- `NodeRegistry.get_node`: look up a node function, raising `KeyError`
for an unregistered name. -/
def get_node (reg : Registry) (name : String) : Except String NodeFunc :=
  match assocFind reg name with
  | some f => .ok f
  | none => .error "Node not found in registry"

/-- `NodeRegistry.has_node`. -/
def has_node (reg : Registry) (name : String) : Bool :=
  (assocFind reg name).isSome

/-- `GraphDefinition` (`src/engine/graph.py`, lines 12-15): node names,
adjacency lists, entry point. -/
structure GraphDefinition where
  nodes : List String
  edges : List (String × List String)
  entry_point : String

/-- `GraphDefinition.validate_structure` (`src/engine/graph.py`, lines
17-28): entry point first, then every edge source, then every edge
target, raising `ValueError` at the first name outside the node set. -/
def validate_structure (g : GraphDefinition) : Except String Unit :=
  if g.entry_point ∈ g.nodes then
    match g.edges.find? (fun p => decide (¬ p.1 ∈ g.nodes)) with
    | some _ => .error "Edge source not in nodes list"
    | none =>
      match g.edges.find? (fun p => decide (∃ t ∈ p.2, ¬ t ∈ g.nodes)) with
      | some _ => .error "Edge target not in nodes list"
      | none => .ok ()
  else
    .error "Entry point not in nodes list"

/-- A failure raised while constructing a `WorkflowGraph`: either a
structural `ValueError` from `validate_structure` or the registry-binding
`ValueError` for a node name with no registry entry. -/
inductive ConstructError where
  | structural (msg : String)
  | missingNode (name : String)
  deriving Repr, DecidableEq

/-- `WorkflowGraph.__init__` (`src/engine/graph.py`, lines 32-41):
validate the definition, then require a registry entry for every declared
node, raising at the first missing one.  `.ok` means construction
succeeds (the graph object is just the pair `(g, reg)`). -/
def mkWorkflowGraph (g : GraphDefinition) (reg : Registry) :
    Except ConstructError Unit :=
  match validate_structure g with
  | .error m => .error (.structural m)
  | .ok () =>
    match g.nodes.find? (fun n => !has_node reg n) with
    | some n => .error (.missingNode n)
    | none => .ok ()

/-- `WorkflowGraph._handle_loop_condition` (`src/engine/graph.py`, lines
123-148): loop to `refine_summary` iff the length exceeds the limit, the
refinement counter is below its ceiling, and the target is among the
successors; otherwise terminate. -/
def handle_loop_condition (next_nodes : List String) (state : WorkflowState) :
    Option String :=
  let should_loop :=
    state.current_length > state.max_length ∧
    state.refinement_iterations < state.max_refinement_iterations
  if should_loop then
    if "refine_summary" ∈ next_nodes then some "refine_summary"
    else none
  else none

/-- `WorkflowGraph._get_next_node` (`src/engine/graph.py`, lines 101-121):
no adjacency entry or an empty one terminates; the loop-control node
`check_length_loop` is routed by `handle_loop_condition`; every other
node goes to the first adjacency entry. -/
def get_next_node (g : GraphDefinition) (current_node : String)
    (state : WorkflowState) : Option String :=
  match assocFind g.edges current_node with
  | none => none
  | some next_nodes =>
    match next_nodes with
    | [] => none
    | first :: _ =>
      if current_node = "check_length_loop" then
        handle_loop_condition next_nodes state
      else
        some first

/-- One record of the execution log.  The source entry also carries a
wall-clock timestamp and duration, which are not modelled; the node name
and the 1-based iteration index are kept. -/
structure LogEntry where
  node : String
  iteration : Nat
  deriving Repr, DecidableEq

/-- Outcome of `WorkflowGraph.execute`.  The source discards its local
log when it raises; the model keeps the log accumulated up to the raise,
since it is exactly the observable trace (log lines / events) at that
point.  `fuelOut` is the artefact of the fuel-based embedding and is
proved unreachable. -/
inductive ExecOutcome where
  | ok (state : WorkflowState) (log : List LogEntry)
  | nodeFailed (node : String) (log : List LogEntry)
  | iterLimit (log : List LogEntry)
  | fuelOut
  deriving Repr

/-- The fixed iteration ceiling (`max_iterations = 1000` in both
`WorkflowGraph.execute` and `AsyncWorkflowGraph.execute_async`). -/
def maxIterations : Nat := 1000

/-- The `while current_node is not None` loop of `WorkflowGraph.execute`
(`src/engine/graph.py`, lines 56-92), with explicit fuel.  Each pass
increments the counter, raises `RuntimeError` once the counter exceeds
the ceiling, runs the node (a raise — including the `KeyError` of a
missing registry entry — aborts as `nodeFailed` with the node name),
appends a log entry, and resolves the successor. -/
def execLoop (g : GraphDefinition) (reg : Registry) : Nat → WorkflowState →
    Option String → Nat → List LogEntry → ExecOutcome
  | 0, _, _, _, _ => .fuelOut
  | fuel + 1, state, current, iteration_count, log =>
    match current with
    | none => .ok state log
    | some node =>
      let iter := iteration_count + 1
      if maxIterations < iter then
        .iterLimit log
      else
        match get_node reg node with
        | .error _ => .nodeFailed node log
        | .ok f =>
          match f state with
          | .error _ => .nodeFailed node log
          | .ok state' =>
            let log' := log ++ [{ node := node, iteration := iter }]
            execLoop g reg fuel state' (get_next_node g node state') iter log'

/-- `WorkflowGraph.execute` (`src/engine/graph.py`, lines 43-99): run the
loop from the entry point with counter 0 and an empty log.  Fuel
`maxIterations + 1` is enough for the ceiling check to fire first
(proved below). -/
def execute (g : GraphDefinition) (reg : Registry) (initial_state : WorkflowState) :
    ExecOutcome :=
  execLoop g reg (maxIterations + 1) initial_state (some g.entry_point) 0 []

/-- `check_length_loop` (`src/workflows/summarization/nodes_upgraded.py`,
lines 147-159): computes the loop predicate only to log it, then returns
the state it was given. -/
def check_length_loop (state : WorkflowState) : WorkflowState :=
  let _should_continue :=
    state.current_length > state.max_length ∧
    state.refinement_iterations < state.max_refinement_iterations
  state

/-- `JobStatus` (`src/engine/job_tracker.py`, lines 13-18). -/
inductive JobStatus where
  | started
  | running
  | completed
  | failed
  deriving Repr, DecidableEq

/-- `JobInfo` (`src/engine/job_tracker.py`, lines 21-34).  Wall-clock
start/end times are not modelled; `has_end_time` records whether
`end_time` has been stamped. -/
structure JobInfo where
  run_id : String
  graph_id : String
  status : JobStatus := .started
  progress_percent : Nat := 0
  last_node : String := ""
  error_message : String := ""
  has_end_time : Bool := false
  total_nodes : Nat := 0
  completed_nodes : Nat := 0
  deriving Repr, DecidableEq

/-- `JobInfo.update_progress` (`src/engine/job_tracker.py`, lines 36-42):
percent is `int((completed / total) * 100)` with `total = 0` guarded as
0, embedded as floor division; status becomes RUNNING. -/
def update_progress (j : JobInfo) (node : String) (completed_nodes : Nat)
    (total_nodes : Nat) : JobInfo :=
  { j with
    last_node := node
    completed_nodes := completed_nodes
    total_nodes := total_nodes
    progress_percent :=
      if 0 < total_nodes then completed_nodes * 100 / total_nodes else 0
    status := .running }

/-- `JobInfo.mark_completed` (`src/engine/job_tracker.py`, lines 44-48). -/
def mark_completed (j : JobInfo) : JobInfo :=
  { j with status := .completed, progress_percent := 100, has_end_time := true }

/-- `JobInfo.mark_failed` (`src/engine/job_tracker.py`, lines 50-54). -/
def mark_failed (j : JobInfo) (error_message : String) : JobInfo :=
  { j with status := .failed, error_message := error_message, has_end_time := true }

/-- One job-tracker call issued by a run (the tracker serializes them
under its lock, so a run's record evolves by applying them in order). -/
inductive JobOp where
  | update (node : String) (completed_nodes total_nodes : Nat)
  | complete
  | fail (error_message : String)
  deriving Repr, DecidableEq

/-- Apply one tracker call to the run's record. -/
def applyOp (j : JobInfo) : JobOp → JobInfo
  | .update node c t => update_progress j node c t
  | .complete => mark_completed j
  | .fail msg => mark_failed j msg

/-- Apply a run's tracker calls in order. -/
def applyOps (j : JobInfo) (ops : List JobOp) : JobInfo :=
  ops.foldl applyOp j

/-- The record's `progress_percent` after each successive tracker call. -/
def percentTrace (j : JobInfo) : List JobOp → List Nat
  | [] => []
  | op :: rest =>
    let j' := applyOp j op
    j'.progress_percent :: percentTrace j' rest

/-- The record `JobTracker.create_job` installs for a fresh run. -/
def initJob (run_id graph_id : String) : JobInfo :=
  { run_id := run_id, graph_id := graph_id }

/-- An event published on the broadcaster by the async path
(`WebSocketManager.send_node_executed` / `send_completed` / `send_error`).
The `NODE_EXECUTED` snapshot carries exactly `current_length` and
`refinement_iterations`. -/
inductive Event where
  | nodeExecuted (node : String) (iteration : Nat)
      (current_length refinement_iterations : Int)
  | completedEv (run_id : String) (graph_id : String)
  | errorEv (message : String)
  deriving Repr, DecidableEq

/-- The `active_connections` map of `WebSocketManager`: per graph id, the
set of subscribed channels (channels are identified by `Nat` ids; Python
iterates a set copy, embedded here as a list snapshot). -/
abbrev Connections : Type := List (String × List Nat)

/-- Remove the first binding of `k` (`del d[k]`). -/
def removeKey (l : Connections) (k : String) : Connections :=
  match l with
  | [] => []
  | (k', v) :: rest => if k' = k then rest else (k', v) :: removeKey rest k

/-- Overwrite the first binding of `k` (`d[k] = v`; appends if absent). -/
def setKey (l : Connections) (k : String) (v : List Nat) : Connections :=
  match l with
  | [] => [(k, v)]
  | (k', w) :: rest => if k' = k then (k, v) :: rest else (k', w) :: setKey rest k v

/-- `WebSocketManager.broadcast_to_graph` (`src/engine/websocket_manager.py`,
lines 56-83).  `sendFails ch` says whether `ch.send_text` raises for that
channel during this call.  An unknown topic returns immediately.
Otherwise every channel of the snapshot gets a send attempt; the failing
ones are collected and, if any, removed from the topic's set afterwards,
deleting the topic entry when the set empties.  Returns the new
connection map and the list of channels actually delivered to. -/
def broadcast_to_graph (conns : Connections) (sendFails : Nat → Bool)
    (graph_id : String) : Connections × List Nat :=
  match assocFind conns graph_id with
  | none => (conns, [])
  | some subs =>
    let delivered := subs.filter (fun ch => !sendFails ch)
    let disconnected := subs.filter (fun ch => sendFails ch)
    if disconnected.isEmpty then
      (conns, delivered)
    else
      let remaining := subs.filter (fun ch => !sendFails ch)
      if remaining.isEmpty then
        (removeKey conns graph_id, delivered)
      else
        (setKey conns graph_id remaining, delivered)

/-- Outcome of `AsyncWorkflowGraph.execute_async`: a normal return with
final state and log, or a raised exception (its message). `fuelOut` is
the fuel artefact, unreachable from `execute_async`. -/
inductive AsyncOutcome where
  | ok (state : WorkflowState) (log : List LogEntry)
  | raised (msg : String)
  | fuelOut
  deriving Repr

/-- The observable effects of one async run: its outcome, the job-tracker
calls it issued in order, and the events it published in order. -/
structure AsyncResult where
  outcome : AsyncOutcome
  jobOps : List JobOp
  events : List Event

/-- The topic label hard-coded by `execute_async`
(`graph_id = "async_execution"`). -/
def asyncGraphId : String := "async_execution"

/-- What runs after the `while` loop of `execute_async`
(`src/engine/async_graph.py`, lines 105-119): if the counter reached the
ceiling, mark the job failed and publish an error, then raise — the raise
is caught by the outer handler, which marks failed and publishes an error
once more before re-raising; otherwise mark the job completed and publish
the completion event. -/
def asyncFinish (run_id : String) (state : WorkflowState) (iteration_count : Nat)
    (ops : List JobOp) (events : List Event) (log : List LogEntry) : AsyncResult :=
  if maxIterations ≤ iteration_count then
    let msg := "Execution exceeded maximum iterations (1000)"
    let outerMsg := "Async execution failed: " ++ msg
    { outcome := .raised msg
      jobOps := ops ++ [.fail msg, .fail outerMsg]
      events := events ++ [.errorEv msg, .errorEv outerMsg] }
  else
    { outcome := .ok state log
      jobOps := ops ++ [.complete]
      events := events ++ [.completedEv run_id asyncGraphId] }

/-- The `while current_node is not None and iteration_count < max_iterations`
loop of `execute_async` (`src/engine/async_graph.py`, lines 52-103), with
explicit fuel.  Each pass increments the counter, reports progress
(`iteration_count - 1` completed nodes out of the graph's node count),
runs the node (a raise marks the job failed and publishes an error in the
inner handler, then again in the outer handler, and aborts), appends a
log entry, publishes the `NODE_EXECUTED` event with the post-node
snapshot, and resolves the successor. -/
def asyncLoop (g : GraphDefinition) (reg : Registry) (run_id : String)
    (total : Nat) : Nat → WorkflowState → Option String → Nat →
    List JobOp → List Event → List LogEntry → AsyncResult
  | 0, _, _, _, ops, events, _ =>
    { outcome := .fuelOut, jobOps := ops, events := events }
  | fuel + 1, state, current, iteration_count, ops, events, log =>
    match current with
    | none => asyncFinish run_id state iteration_count ops events log
    | some node =>
      if iteration_count < maxIterations then
        let iter := iteration_count + 1
        let ops := ops ++ [.update node (iter - 1) total]
        match (get_node reg node).bind (fun f => f state) with
        | .error e =>
          let msg := "Node " ++ node ++ " failed: " ++ e
          let outerMsg := "Async execution failed: " ++ msg
          { outcome := .raised msg
            jobOps := ops ++ [.fail msg, .fail outerMsg]
            events := events ++ [.errorEv msg, .errorEv outerMsg] }
        | .ok state' =>
          let log := log ++ [{ node := node, iteration := iter }]
          let events := events ++
            [.nodeExecuted node iter state'.current_length state'.refinement_iterations]
          asyncLoop g reg run_id total fuel state' (get_next_node g node state')
            iter ops events log
      else
        asyncFinish run_id state iteration_count ops events log

/-- `AsyncWorkflowGraph.execute_async` (`src/engine/async_graph.py`,
lines 26-129): report the initial "starting" progress, then run the loop
from the entry point.  Fuel `maxIterations + 1` covers the at most
`maxIterations` loop passes. -/
def execute_async (run_id : String) (g : GraphDefinition) (reg : Registry)
    (initial_state : WorkflowState) : AsyncResult :=
  let total := g.nodes.length
  asyncLoop g reg run_id total (maxIterations + 1) initial_state
    (some g.entry_point) 0 [.update "starting" 0 total] [] []

/-- Looking a node up and invoking it, as one fallible step (the body of
the `try` block in `execute`): raises for a missing registry entry or
when the function itself raises. -/
def runNode (reg : Registry) (name : String) (s : WorkflowState) :
    Except String WorkflowState :=
  (get_node reg name).bind (fun f => f s)

/-- Iteration indices `start, start+1, …` of the given count (the shape
of the `iteration` column of an execution log). -/
def iterSeq (start : Nat) : Nat → List Nat
  | 0 => []
  | n + 1 => start :: iterSeq (start + 1) n

/-! Concrete fixtures used by witnesses and counterexamples. -/

/-- A node that returns its state unchanged. -/
def idNode : NodeFunc := fun s => .ok s

/-- A node whose function raises. -/
def raiseNode : NodeFunc := fun _ => .error "boom"

/-- A node that increments `refinement_iterations`, the behaviour of the
real `refine_summary` node that drives the loop. -/
def refineIncr : NodeFunc := fun s =>
  .ok { s with refinement_iterations := s.refinement_iterations + 1 }

/-- The loop-control node as registered: the (identity) source function. -/
def checkNode : NodeFunc := fun s => .ok (check_length_loop s)

/-- Two-node linear graph `a → b`. -/
def gAB : GraphDefinition :=
  { nodes := ["a", "b"], edges := [("a", ["b"])], entry_point := "a" }

/-- Registry binding both nodes of `gAB` to the identity. -/
def regAB : Registry := [("a", idNode), ("b", idNode)]

/-- Registry for `gAB` where node `b` raises. -/
def regABfail : Registry := [("a", idNode), ("b", raiseNode)]

/-- The refinement loop of the reference workflow, reduced to the two
nodes that cycle: `refine_summary ⇄ check_length_loop`. -/
def loopG : GraphDefinition :=
  { nodes := ["refine_summary", "check_length_loop"],
    edges := [("refine_summary", ["check_length_loop"]),
              ("check_length_loop", ["refine_summary"])],
    entry_point := "refine_summary" }

/-- Registry for `loopG`. -/
def loopReg : Registry :=
  [("refine_summary", refineIncr), ("check_length_loop", checkNode)]

/-- Initial state that keeps the loop predicate true until the refinement
counter reaches 500, so the traversal executes exactly 1000 nodes and
then terminates by successor resolution. -/
def boundaryState : WorkflowState :=
  { current_length := 10, max_length := 5, max_refinement_iterations := 500 }

/-- The states the boundary fixture's run passes through: `boundaryState`
with the refinement counter at `j` (so `stL 0 = boundaryState`). -/
def stL (j : Int) : WorkflowState :=
  { current_length := 10, max_length := 5, max_refinement_iterations := 500,
    refinement_iterations := j }

/-- Initial state whose loop runs twice: 4 node executions over a 2-node
graph, so reported completed counts (0,1,2,3) overtake the node total 2. -/
def smallLoopState : WorkflowState :=
  { current_length := 10, max_length := 5, max_refinement_iterations := 2 }

/-- The async run over the small looping fixture. -/
def smallLoopRun : AsyncResult := execute_async "r1" loopG loopReg smallLoopState

/-- The async run over the 1000-execution boundary fixture. -/
def boundaryRun : AsyncResult := execute_async "r1" loopG loopReg boundaryState

/-- The synchronous run over the same boundary fixture. -/
def boundarySync : ExecOutcome := execute loopG loopReg boundaryState

/-- Channels with an odd id fail their send in the C8 witness. -/
def oddFails : Nat → Bool := fun ch => ch % 2 == 1

/-- The log length of a successful synchronous outcome, `none` otherwise. -/
def okLogLength : ExecOutcome → Option Nat
  | .ok _ log => some log.length
  | _ => none

/-- Whether an async outcome is a raised exception. -/
def isRaised : AsyncOutcome → Bool
  | .raised _ => true
  | _ => false

/-- The raised exception's message, if the async outcome is a raise. -/
def raisedMsg : AsyncOutcome → Option String
  | .raised m => some m
  | _ => none

/-- Whether an event is the `COMPLETED` event. -/
def isCompletedEvent : Event → Bool
  | .completedEv _ _ => true
  | _ => false

/-- Whether an event is the `ERROR` event. -/
def isErrorEvent : Event → Bool
  | .errorEv _ => true
  | _ => false

/-! # Theorems -/

/-- C10: the loop-control node function `check_length_loop` is the
identity on the state — it returns its input with every field unchanged —
and consequently the engine's loop-continuation decision, recomputed by
`_handle_loop_condition` from the state's fields, is the same before and
after the node runs. -/
theorem C10_check_length_loop_identity :
    ∀ s : WorkflowState, check_length_loop s = s ∧
      ∀ next_nodes : List String,
        handle_loop_condition next_nodes (check_length_loop s) =
          handle_loop_condition next_nodes s := by
  intro s
  exact ⟨rfl, fun _ => rfl⟩

/-- C9: `copy_with_updates` returns a state in which every field named in
the update set holds the updated value and every other field keeps the
original value (`Option.getD` reads: the update if present, otherwise
the original).  The original state is a value and is never mutated. -/
theorem C9_copy_with_updates :
    ∀ (s : WorkflowState) (u : StateUpdates),
      (copy_with_updates s u).text = u.text.getD s.text ∧
      (copy_with_updates s u).max_length = u.max_length.getD s.max_length ∧
      (copy_with_updates s u).chunk_size = u.chunk_size.getD s.chunk_size ∧
      (copy_with_updates s u).chunks = u.chunks.getD s.chunks ∧
      (copy_with_updates s u).chunk_summaries =
        u.chunk_summaries.getD s.chunk_summaries ∧
      (copy_with_updates s u).merged_summary =
        u.merged_summary.getD s.merged_summary ∧
      (copy_with_updates s u).refined_summary =
        u.refined_summary.getD s.refined_summary ∧
      (copy_with_updates s u).current_length =
        u.current_length.getD s.current_length ∧
      (copy_with_updates s u).refinement_iterations =
        u.refinement_iterations.getD s.refinement_iterations ∧
      (copy_with_updates s u).max_refinement_iterations =
        u.max_refinement_iterations.getD s.max_refinement_iterations ∧
      (copy_with_updates s u).execution_metadata =
        u.execution_metadata.getD s.execution_metadata := by
  intro s u
  obtain ⟨t, ml, cs, ch, chs, ms, rs, cl, ri, mri, em⟩ := u
  refine ⟨?_, ?_, ?_, ?_, ?_, ?_, ?_, ?_, ?_, ?_, ?_⟩ <;>
    first
    | (cases t <;> rfl)
    | (cases ml <;> rfl)
    | (cases cs <;> rfl)
    | (cases ch <;> rfl)
    | (cases chs <;> rfl)
    | (cases ms <;> rfl)
    | (cases rs <;> rfl)
    | (cases cl <;> rfl)
    | (cases ri <;> rfl)
    | (cases mri <;> rfl)
    | (cases em <;> rfl)

/-- C1: successor resolution.  A node with no adjacency entry or an empty
one has no successor.  A node other than the loop-control node with a
non-empty adjacency list goes to the first entry, never a later one.  The
loop-control node goes to `refine_summary` exactly when that target is in
its adjacency list, the current length exceeds the limit, and the
refinement counter is below its ceiling; in every other case it has no
successor even with a non-empty adjacency list. -/
theorem C1_successor_resolution :
    ∀ (g : GraphDefinition) (s : WorkflowState) (node : String),
      (assocFind g.edges node = none → get_next_node g node s = none) ∧
      (assocFind g.edges node = some [] → get_next_node g node s = none) ∧
      (∀ first rest, node ≠ "check_length_loop" →
        assocFind g.edges node = some (first :: rest) →
        get_next_node g node s = some first) ∧
      (∀ next_nodes, next_nodes ≠ [] →
        assocFind g.edges "check_length_loop" = some next_nodes →
        get_next_node g "check_length_loop" s =
          (if "refine_summary" ∈ next_nodes ∧
              s.current_length > s.max_length ∧
              s.refinement_iterations < s.max_refinement_iterations
           then some "refine_summary" else none)) := by
  intro g s node
  refine ⟨?_, ?_, ?_, ?_⟩
  · intro h
    simp only [get_next_node, h]
  · intro h
    simp only [get_next_node, h]
  · intro first rest hne h
    simp only [get_next_node, h, if_neg hne]
  · intro next_nodes hne h
    obtain ⟨first, rest, rfl⟩ : ∃ a l, next_nodes = a :: l := by
      cases next_nodes with
      | nil => exact absurd rfl hne
      | cons a l => exact ⟨a, l, rfl⟩
    simp only [get_next_node, h, if_pos rfl]
    unfold handle_loop_condition
    by_cases hc : s.current_length > s.max_length ∧
        s.refinement_iterations < s.max_refinement_iterations
    · by_cases hm : "refine_summary" ∈ first :: rest <;> simp [hc, hm]
    · simp [hc]

/-- Helper: appending a fresh binding at the end of an association list
whose lookup missed makes the lookup return the new binding. -/
theorem assocFind_append_of_eq_none {β : Type} (l : List (String × β))
    (k : String) (v : β) (h : assocFind l k = none) :
    assocFind (l ++ [(k, v)]) k = some v := by
  induction l with
  | nil => simp [assocFind]
  | cons p rest ih =>
    obtain ⟨k1, v1⟩ := p
    by_cases hk : k1 = k
    · subst hk
      simp [assocFind] at h
    · simp only [List.cons_append, assocFind, if_neg hk] at h ⊢
      exact ih h

/-- Helper: a key absent from the key column is not found. -/
theorem assocFind_eq_none_of_not_mem {β : Type} (l : List (String × β))
    (k : String) (h : ¬ k ∈ l.map Prod.fst) : assocFind l k = none := by
  induction l with
  | nil => rfl
  | cons p rest ih =>
    obtain ⟨k1, v1⟩ := p
    simp only [List.map_cons, List.mem_cons] at h
    push_neg at h
    have hk : k1 ≠ k := fun hh => h.1 hh.symm
    simp only [assocFind, if_neg hk]
    exact ih h.2

/-- Helper: after `removeKey`, a key that occurred at most once is gone. -/
theorem assocFind_removeKey_self (l : Connections) (k : String)
    (h : (l.map Prod.fst).Nodup) : assocFind (removeKey l k) k = none := by
  induction l with
  | nil => rfl
  | cons p rest ih =>
    obtain ⟨k1, v1⟩ := p
    simp only [List.map_cons, List.nodup_cons] at h
    by_cases hk : k1 = k
    · simp only [removeKey, if_pos hk]
      exact assocFind_eq_none_of_not_mem rest k (hk ▸ h.1)
    · simp only [removeKey, if_neg hk, assocFind, if_neg hk]
      exact ih h.2

/-- Helper: after `setKey`, the key maps to the new value. -/
theorem assocFind_setKey_self (l : Connections) (k : String) (v : List Nat) :
    assocFind (setKey l k v) k = some v := by
  induction l with
  | nil => simp [setKey, assocFind]
  | cons p rest ih =>
    obtain ⟨k1, v1⟩ := p
    by_cases hk : k1 = k
    · simp [setKey, hk, assocFind]
    · simp only [setKey, if_neg hk, assocFind, if_neg hk]
      exact ih

/-- Witness for C1 at concrete inputs: in `gAB` the successor of `a` is
`b` (first adjacency entry), and in `loopG` the loop-control node routes
to `refine_summary` when the predicate holds. -/
theorem C1_successor_resolution_witness :
    get_next_node gAB "a" boundaryState = some "b" ∧
    get_next_node loopG "check_length_loop" boundaryState =
      some "refine_summary" := by
  constructor
  · exact (C1_successor_resolution gAB boundaryState "a").2.2.1 "b" []
      (by decide) rfl
  · have h := (C1_successor_resolution loopG boundaryState
      "check_length_loop").2.2.2 ["refine_summary"] (by decide) rfl
    rw [h]
    decide

/-- C7: registering under a name already present raises
`DuplicateRegistrationError` (the register call returns no new registry,
so the original binding is still what lookup returns); looking up a name
never registered raises; after a successful registration, lookup of the
name returns exactly the registered function. -/
theorem C7_registry_operations :
    ∀ (reg reg2 : Registry) (name : String) (f0 f : NodeFunc),
      (assocFind reg name = some f0 →
        (register_node reg name f).isOk = false ∧ get_node reg name = .ok f0) ∧
      (assocFind reg name = none → (get_node reg name).isOk = false) ∧
      (register_node reg name f = .ok reg2 → get_node reg2 name = .ok f) := by
  intro reg reg2 name f0 f
  refine ⟨?_, ?_, ?_⟩
  · intro h
    constructor
    · simp [register_node, h, Except.isOk, Except.toBool]
    · simp [get_node, h]
  · intro h
    simp [get_node, h, Except.isOk, Except.toBool]
  · intro h
    by_cases hs : (assocFind reg name).isSome
    · simp [register_node, hs] at h
    · simp [register_node, hs] at h
      subst h
      have hn : assocFind reg name = none := by
        cases hx : assocFind reg name with
        | none => rfl
        | some v => rw [hx] at hs; simp at hs
      simp [get_node, assocFind_append_of_eq_none reg name f hn]

/-- Witness for C7 at a concrete registry: `a` is bound, so re-registering
`a` is rejected and its original function survives; `b` is unbound, so
lookup of `b` fails; and registering `b` makes lookup of `b` return the
new function. -/
theorem C7_registry_operations_witness :
    ((register_node [("a", idNode)] "a" raiseNode).isOk = false ∧
      get_node [("a", idNode)] "a" = .ok idNode) ∧
    (get_node [("a", idNode)] "b").isOk = false ∧
    get_node [("a", idNode), ("b", raiseNode)] "b" = .ok raiseNode := by
  refine ⟨?_, ?_, ?_⟩
  · exact (C7_registry_operations [("a", idNode)] [("a", idNode)] "a"
      idNode raiseNode).1 rfl
  · exact (C7_registry_operations [("a", idNode)] [("a", idNode)] "b"
      idNode raiseNode).2.1 rfl
  · exact (C7_registry_operations [("a", idNode)]
      [("a", idNode), ("b", raiseNode)] "b" idNode raiseNode).2.2 rfl

/-- C8: publishing to a topic with zero subscribers is a no-op that never
raises; otherwise every channel subscribed at the start of the call gets
a delivery attempt, the channels delivered to are exactly those whose
send succeeded (a failing channel never prevents delivery to the rest of
the same call), and afterwards the topic's subscriber set consists of
exactly the channels whose send succeeded — the topic entry being pruned
when that set emptied.  The Nodup hypothesis states that topics are
unique keys, as in a Python dict. -/
theorem C8_broadcast_fanout :
    ∀ (conns : Connections) (sendFails : Nat → Bool) (graph_id : String),
      (conns.map Prod.fst).Nodup →
      (assocFind conns graph_id = none →
        broadcast_to_graph conns sendFails graph_id = (conns, [])) ∧
      (∀ subs, assocFind conns graph_id = some subs →
        (broadcast_to_graph conns sendFails graph_id).2 =
          subs.filter (fun ch => !sendFails ch) ∧
        assocFind (broadcast_to_graph conns sendFails graph_id).1 graph_id =
          (if (subs.filter (fun ch => !sendFails ch)).isEmpty = true ∧
              (subs.filter (fun ch => sendFails ch)).isEmpty = false
           then none
           else some (subs.filter (fun ch => !sendFails ch)))) := by
  intro conns sendFails graph_id hnd
  constructor
  · intro h
    simp [broadcast_to_graph, h]
  · intro subs h
    simp only [broadcast_to_graph, h]
    by_cases hd : (subs.filter (fun ch => sendFails ch)).isEmpty
    · rw [if_pos hd]
      have hall : ∀ x ∈ subs, ¬ sendFails x = true := by
        intro x hx hfx
        have : x ∈ subs.filter (fun ch => sendFails ch) :=
          List.mem_filter.mpr ⟨hx, hfx⟩
        rw [List.isEmpty_iff] at hd
        rw [hd] at this
        exact absurd this (List.not_mem_nil x)
      have hself : subs.filter (fun ch => !sendFails ch) = subs := by
        apply List.filter_eq_self.mpr
        intro a ha
        simp [hall a ha]
      constructor
      · rfl
      · rw [if_neg (fun hx => by rw [hd] at hx; exact absurd hx.2 (by simp))]
        rw [h, hself]
    · rw [if_neg hd]
      by_cases hr : (subs.filter (fun ch => !sendFails ch)).isEmpty
      · rw [if_pos hr]
        refine ⟨rfl, ?_⟩
        rw [if_pos ⟨hr, by simpa using hd⟩]
        exact assocFind_removeKey_self conns graph_id hnd
      · rw [if_neg hr]
        refine ⟨rfl, ?_⟩
        rw [if_neg (fun hx => hr hx.1)]
        exact assocFind_setKey_self conns graph_id _

/-- Witness for C8 at a concrete subscriber map: with channels 1, 2, 3
subscribed to topic `g` and sends failing for the odd channels, channel 2
is still delivered to and the topic's set afterwards is exactly `[2]`;
publishing to the unknown topic `h` is a no-op. -/
theorem C8_broadcast_fanout_witness :
    (broadcast_to_graph [("g", [1, 2, 3])] oddFails "g").2 = [2] ∧
    assocFind (broadcast_to_graph [("g", [1, 2, 3])] oddFails "g").1 "g" =
      some [2] ∧
    broadcast_to_graph [("g", [1, 2, 3])] oddFails "h" =
      ([("g", [1, 2, 3])], []) := by
  have h := (C8_broadcast_fanout [("g", [1, 2, 3])] oddFails "g"
    (by decide)).2 [1, 2, 3] rfl
  have h2 := (C8_broadcast_fanout [("g", [1, 2, 3])] oddFails "h"
    (by decide)).1 (by decide)
  exact ⟨h.1.trans (by decide), h.2.trans (by decide), h2⟩

/-- C6: `validate_structure` fails (with a structural `ValueError`, its
only failure) if and only if the entry point is outside the node set, or
some edge source is outside the node set, or some edge target is outside
the node set; and for a definition that passes validation, constructing a
`WorkflowGraph` over a registry fails with the missing-node error if and
only if some declared node name has no registry entry.  All of this
happens at construction, before any node executes. -/
theorem C6_construction_validation :
    ∀ (g : GraphDefinition) (reg : Registry),
      ((validate_structure g).isOk = false ↔
        (¬ g.entry_point ∈ g.nodes ∨
         (∃ p ∈ g.edges, ¬ p.1 ∈ g.nodes) ∨
         (∃ p ∈ g.edges, ∃ t ∈ p.2, ¬ t ∈ g.nodes))) ∧
      (validate_structure g = .ok () →
        ((∃ n, mkWorkflowGraph g reg = .error (.missingNode n)) ↔
          (∃ n ∈ g.nodes, has_node reg n = false))) := by
  intro g reg
  constructor
  · by_cases he : g.entry_point ∈ g.nodes
    · simp only [validate_structure, if_pos he]
      cases hf : g.edges.find? (fun p => decide (¬ p.1 ∈ g.nodes)) with
      | some p =>
        refine iff_of_true rfl ?_
        exact Or.inr (Or.inl ⟨p, List.mem_of_find?_eq_some hf,
          by simpa using List.find?_some hf⟩)
      | none =>
        have hsrc : ∀ p ∈ g.edges, p.1 ∈ g.nodes := by
          intro p hp
          have := List.find?_eq_none.mp hf p hp
          simpa using this
        cases ht : g.edges.find? (fun p => decide (∃ t ∈ p.2, ¬ t ∈ g.nodes)) with
        | some p =>
          refine iff_of_true rfl ?_
          exact Or.inr (Or.inr ⟨p, List.mem_of_find?_eq_some ht,
            by simpa using List.find?_some ht⟩)
        | none =>
          have htgt : ∀ p ∈ g.edges, ∀ t ∈ p.2, t ∈ g.nodes := by
            intro p hp
            have := List.find?_eq_none.mp ht p hp
            simpa using this
          refine iff_of_false (by simp [Except.isOk, Except.toBool]) ?_
          rintro (hx | ⟨p, hp, hx⟩ | ⟨p, hp, t, htp, hx⟩)
          · exact hx he
          · exact hx (hsrc p hp)
          · exact hx (htgt p hp t htp)
    · refine iff_of_true ?_ (Or.inl he)
      simp [validate_structure, if_neg he, Except.isOk, Except.toBool]
  · intro hv
    simp only [mkWorkflowGraph, hv]
    cases hf : g.nodes.find? (fun n => !has_node reg n) with
    | some n =>
      constructor
      · intro _
        refine ⟨n, List.mem_of_find?_eq_some hf, ?_⟩
        have := List.find?_some hf
        simpa using this
      · intro _
        exact ⟨n, rfl⟩
    | none =>
      constructor
      · rintro ⟨n, hn⟩
        simp at hn
      · rintro ⟨n, hn, hmiss⟩
        have := List.find?_eq_none.mp hf n hn
        simp [hmiss] at this

/-- Witness for C6 at concrete inputs: a definition whose entry point is
missing fails validation; `gAB` passes validation, and binding it to a
registry lacking node `b` fails with the missing-node error while binding
it to `regAB` succeeds (no missing-node error exists). -/
theorem C6_construction_validation_witness :
    (validate_structure { nodes := ["a"], edges := [], entry_point := "x" }).isOk
        = false ∧
    (∃ n, mkWorkflowGraph gAB [("a", idNode)] = .error (.missingNode n)) ∧
    ¬ ∃ n, mkWorkflowGraph gAB regAB = .error (.missingNode n) := by
  refine ⟨?_, ?_, ?_⟩
  · exact (C6_construction_validation
      { nodes := ["a"], edges := [], entry_point := "x" } []).1.mpr
      (Or.inl (by decide))
  · exact ((C6_construction_validation gAB [("a", idNode)]).2 rfl).mpr
      ⟨"b", by decide, by decide⟩
  · intro hx
    have := ((C6_construction_validation gAB regAB).2 rfl).mp hx
    revert this
    decide

/-- Helper: the property "percent is exactly 100 when the status is
COMPLETED" is preserved by every job-tracker call, hence holds after any
call sequence from a record that satisfies it. -/
theorem applyOps_completed_percent :
    ∀ (ops : List JobOp) (j : JobInfo),
      (j.status = .completed → j.progress_percent = 100) →
      ((applyOps j ops).status = .completed →
        (applyOps j ops).progress_percent = 100) := by
  intro ops
  induction ops with
  | nil => exact fun j h => h
  | cons op rest ih =>
    intro j h
    simp only [applyOps, List.foldl_cons]
    apply ih
    cases op with
    | update n c t =>
      intro hs
      simp [applyOp, update_progress] at hs
    | complete =>
      intro _
      rfl
    | fail m =>
      intro hs
      simp [applyOp, mark_failed] at hs

/-- C2 counterexample: in the async run over the two-node refinement loop
(4 node executions over a 2-node graph), the job record's
`progress_percent` takes the successive values 0, 0, 50, 100, 150, 100 —
it exceeds 100 (completed counts overtake the node total because looping
revisits nodes, and `update_progress` does not clamp) and then decreases
from 150 to 100 at `mark_completed`, refuting both the 0–100 bound and
monotonicity. -/
theorem C2_progress_counterexample :
    percentTrace (initJob "r1" asyncGraphId) smallLoopRun.jobOps =
      [0, 0, 50, 100, 150, 100] ∧ 100 < 150 := by
  constructor
  · decide
  · decide

/-- C2 amended: `update_progress` sets percent to
⌊100·completed/total⌋ (0 when total = 0) and the status to RUNNING;
percent is exactly 100 whenever the status is COMPLETED (for any call
sequence from a fresh record); and the 0–100 bound and monotonicity hold
in the intended regime — percent stays at most 100 provided
completed ≤ total, and is non-decreasing across updates with a fixed
total and non-decreasing completed counts.  Without the completed ≤ total
proviso the bound and monotonicity fail, as the counterexample shows. -/
theorem C2_progress_amended :
    ∀ (j j2 : JobInfo) (node node2 run graphid : String) (c c2 t : Nat)
      (ops : List JobOp),
      ((update_progress j node c t).progress_percent =
          (if 0 < t then c * 100 / t else 0) ∧
        (update_progress j node c t).status = .running) ∧
      (c ≤ t → (update_progress j node c t).progress_percent ≤ 100) ∧
      (c ≤ c2 → (update_progress j node c t).progress_percent ≤
          (update_progress j2 node2 c2 t).progress_percent) ∧
      (mark_completed j).progress_percent = 100 ∧
      ((applyOps (initJob run graphid) ops).status = .completed →
        (applyOps (initJob run graphid) ops).progress_percent = 100) := by
  intro j j2 node node2 run graphid c c2 t ops
  refine ⟨⟨rfl, rfl⟩, ?_, ?_, rfl, ?_⟩
  · intro h
    simp only [update_progress]
    by_cases ht : 0 < t
    · rw [if_pos ht]
      calc c * 100 / t ≤ t * 100 / t :=
            Nat.div_le_div_right (Nat.mul_le_mul_right 100 h)
        _ = 100 := Nat.mul_div_cancel_left 100 ht
    · rw [if_neg ht]
      exact Nat.zero_le 100
  · intro h
    simp only [update_progress]
    by_cases ht : 0 < t
    · rw [if_pos ht, if_pos ht]
      exact Nat.div_le_div_right (Nat.mul_le_mul_right 100 h)
    · rw [if_neg ht, if_neg ht]
  · exact applyOps_completed_percent ops (initJob run graphid)
      (fun h => by simp [initJob] at h)

/-- Witness for C2 amended at concrete inputs: one update with
completed 1 of total 2 gives 50 ≤ 100, a later update with completed 2
does not decrease it, and a record that was marked completed reports
percent 100. -/
theorem C2_progress_amended_witness :
    (update_progress (initJob "r" "g") "n" 1 2).progress_percent ≤ 100 ∧
    (update_progress (initJob "r" "g") "n" 1 2).progress_percent ≤
      (update_progress (initJob "r" "g") "n" 2 2).progress_percent ∧
    ((applyOps (initJob "r" "g") [JobOp.complete]).status = .completed →
      (applyOps (initJob "r" "g") [JobOp.complete]).progress_percent = 100) := by
  have h := C2_progress_amended (initJob "r" "g") (initJob "r" "g")
    "n" "n" "r" "g" 1 2 2 [JobOp.complete]
  exact ⟨h.2.1 (by decide), h.2.2.1 (by decide), h.2.2.2.2⟩

/-- Helper: with enough fuel the execution loop never exhausts it — the
iteration-ceiling check fires first. -/
theorem execLoop_ne_fuelOut :
    ∀ (fuel : Nat) (g : GraphDefinition) (reg : Registry) (st : WorkflowState)
      (cur : Option String) (iter : Nat) (log : List LogEntry),
      0 < fuel → maxIterations < fuel + iter →
      execLoop g reg fuel st cur iter log ≠ .fuelOut := by
  intro fuel
  induction fuel with
  | zero => intro g reg st cur iter log h0 _; exact absurd h0 (by omega)
  | succ f ih =>
    intro g reg st cur iter log _ hlt
    cases cur with
    | none => simp [execLoop]
    | some node =>
      simp only [execLoop]
      by_cases hi : maxIterations < iter + 1
      · rw [if_pos hi]
        simp
      · rw [if_neg hi]
        cases hgn : get_node reg node with
        | error e => simp
        | ok fn =>
          dsimp only
          cases hfn : fn st with
          | error e => simp
          | ok st2 =>
            dsimp only
            exact ih g reg st2 (get_next_node g node st2) (iter + 1) _
              (by omega) (by omega)

/-- Helper: a successful loop run appends at most `maxIterations - iter`
further log entries. -/
theorem execLoop_ok_length :
    ∀ (fuel : Nat) (g : GraphDefinition) (reg : Registry) (st : WorkflowState)
      (cur : Option String) (iter : Nat) (log : List LogEntry)
      (s2 : WorkflowState) (log2 : List LogEntry),
      execLoop g reg fuel st cur iter log = .ok s2 log2 →
      log2.length ≤ log.length + (maxIterations - iter) := by
  intro fuel
  induction fuel with
  | zero => intro g reg st cur iter log s2 log2 h; simp [execLoop] at h
  | succ f ih =>
    intro g reg st cur iter log s2 log2 h
    cases cur with
    | none =>
      simp only [execLoop, ExecOutcome.ok.injEq] at h
      rw [← h.2]
      omega
    | some node =>
      simp only [execLoop] at h
      by_cases hi : maxIterations < iter + 1
      · rw [if_pos hi] at h
        simp at h
      · rw [if_neg hi] at h
        cases hgn : get_node reg node with
        | error e =>
          rw [hgn] at h
          simp at h
        | ok fn =>
          rw [hgn] at h
          dsimp only at h
          cases hfn : fn st with
          | error e =>
            rw [hfn] at h
            simp at h
          | ok st2 =>
            rw [hfn] at h
            dsimp only at h
            have := ih g reg st2 (get_next_node g node st2) (iter + 1)
              (log ++ [{ node := node, iteration := iter + 1 }]) s2 log2 h
            simp only [List.length_append, List.length_cons,
              List.length_nil] at this
            omega

/-- C4: for every graph definition, registry and initial state, `execute`
is a total function that never exhausts its fuel (so the run terminates:
it returns, raises a node failure, or raises the iteration-limit error),
and a normal return carries a log of at most 1000 entries — the loop
never executes more than the fixed ceiling of 1000 node invocations. -/
theorem C4_iteration_ceiling :
    ∀ (g : GraphDefinition) (reg : Registry) (s : WorkflowState),
      execute g reg s ≠ .fuelOut ∧
      (∀ s2 log2, execute g reg s = .ok s2 log2 →
        log2.length ≤ maxIterations) := by
  intro g reg s
  constructor
  · exact execLoop_ne_fuelOut (maxIterations + 1) g reg s
      (some g.entry_point) 0 [] (by omega) (by omega)
  · intro s2 log2 h
    have := execLoop_ok_length (maxIterations + 1) g reg s
      (some g.entry_point) 0 [] s2 log2 h
    simpa using this

/-- Witness for C4 at a concrete run: the two-node linear graph `a → b`
completes with a 2-entry log, within the ceiling. -/
theorem C4_iteration_ceiling_witness :
    execute gAB regAB {} ≠ .fuelOut ∧
    ([{ node := "a", iteration := 1 },
      { node := "b", iteration := 2 }] : List LogEntry).length ≤
      maxIterations :=
  ⟨(C4_iteration_ceiling gAB regAB {}).1,
   (C4_iteration_ceiling gAB regAB {}).2 {}
     [{ node := "a", iteration := 1 }, { node := "b", iteration := 2 }] rfl⟩

/-- Helper: a node-failure outcome of the loop keeps the log accumulated
so far plus one entry per iteration completed after `iter`, numbered
consecutively, and the named node's function (or its registry lookup)
raises on some state. -/
theorem execLoop_nodeFailed :
    ∀ (fuel : Nat) (g : GraphDefinition) (reg : Registry) (st : WorkflowState)
      (cur : Option String) (iter : Nat) (log : List LogEntry)
      (name : String) (log2 : List LogEntry),
      execLoop g reg fuel st cur iter log = .nodeFailed name log2 →
      (∃ t, log2 = log ++ t ∧
        t.map LogEntry.iteration = iterSeq (iter + 1) t.length) ∧
      ∃ s2 e, runNode reg name s2 = .error e := by
  intro fuel
  induction fuel with
  | zero => intro g reg st cur iter log name log2 h; simp [execLoop] at h
  | succ f ih =>
    intro g reg st cur iter log name log2 h
    cases cur with
    | none => simp [execLoop] at h
    | some node =>
      simp only [execLoop] at h
      by_cases hi : maxIterations < iter + 1
      · rw [if_pos hi] at h
        simp at h
      · rw [if_neg hi] at h
        cases hgn : get_node reg node with
        | error e =>
          rw [hgn] at h
          dsimp only at h
          simp only [ExecOutcome.nodeFailed.injEq] at h
          obtain ⟨rfl, rfl⟩ := h
          refine ⟨⟨[], by simp, rfl⟩, st, e, ?_⟩
          simp only [runNode, hgn]
          rfl
        | ok fn =>
          rw [hgn] at h
          dsimp only at h
          cases hfn : fn st with
          | error e =>
            rw [hfn] at h
            dsimp only at h
            simp only [ExecOutcome.nodeFailed.injEq] at h
            obtain ⟨rfl, rfl⟩ := h
            refine ⟨⟨[], by simp, rfl⟩, st, e, ?_⟩
            simp only [runNode, hgn]
            exact hfn
          | ok st2 =>
            rw [hfn] at h
            dsimp only at h
            obtain ⟨⟨t, ht, hmap⟩, hex⟩ := ih g reg st2
              (get_next_node g node st2) (iter + 1)
              (log ++ [{ node := node, iteration := iter + 1 }]) name log2 h
            refine ⟨⟨{ node := node, iteration := iter + 1 } :: t, ?_, ?_⟩, hex⟩
            · rw [ht, List.append_assoc]
              rfl
            · simp only [List.map_cons, List.length_cons, hmap]
              rfl

/-- C5: when `execute` raises a node failure, the error carries the name
of a node whose lookup-and-invoke step raises on some state, the run is
aborted there (the loop structure invokes nothing further), and the log
at that point holds exactly one entry per node invocation that completed
strictly before the failing one, in execution order (iterations
1, 2, …, n), with no entry appended for the failing invocation itself. -/
theorem C5_node_failure_log :
    ∀ (g : GraphDefinition) (reg : Registry) (s : WorkflowState)
      (name : String) (log2 : List LogEntry),
      execute g reg s = .nodeFailed name log2 →
      log2.map LogEntry.iteration = iterSeq 1 log2.length ∧
      ∃ s2 e, runNode reg name s2 = .error e := by
  intro g reg s name log2 h
  obtain ⟨⟨t, ht, hmap⟩, hex⟩ := execLoop_nodeFailed (maxIterations + 1)
    g reg s (some g.entry_point) 0 [] name log2 h
  simp only [List.nil_append] at ht
  subst ht
  exact ⟨hmap, hex⟩

/-- Witness for C5 at a concrete run: in `gAB` with `b` bound to a
raising function, `execute` fails at `b` after `a` completed; the log has
the single entry for `a` (iteration 1) and `b`'s function indeed raises. -/
theorem C5_node_failure_log_witness :
    ([{ node := "a", iteration := 1 }] : List LogEntry).map LogEntry.iteration =
      iterSeq 1 ([{ node := "a", iteration := 1 }] : List LogEntry).length ∧
    ∃ s2 e, runNode regABfail "b" s2 = .error e :=
  C5_node_failure_log gAB regABfail {} "b" [{ node := "a", iteration := 1 }] rfl

/-- Helper: one step of the synchronous loop on a node that runs
successfully, below the iteration ceiling. -/
theorem execLoop_step_ok (g : GraphDefinition) (reg : Registry) (fuel : Nat)
    (state : WorkflowState) (node : String) (iter : Nat) (log : List LogEntry)
    (fn : NodeFunc) (state' : WorkflowState)
    (hiter : ¬ maxIterations < iter + 1)
    (hgn : get_node reg node = .ok fn)
    (hfn : fn state = .ok state') :
    execLoop g reg (fuel + 1) state (some node) iter log =
      execLoop g reg fuel state' (get_next_node g node state') (iter + 1)
        (log ++ [{ node := node, iteration := iter + 1 }]) := by
  simp only [execLoop]
  rw [if_neg hiter, hgn]
  dsimp only
  rw [hfn]

/-- Helper: the synchronous loop returns on an absent successor. -/
theorem execLoop_step_none (g : GraphDefinition) (reg : Registry) (fuel : Nat)
    (state : WorkflowState) (iter : Nat) (log : List LogEntry) :
    execLoop g reg (fuel + 1) state none iter log = .ok state log := rfl

/-- Helper: one step of the async loop on a node that runs successfully,
below the iteration ceiling. -/
theorem asyncLoop_step_ok (g : GraphDefinition) (reg : Registry)
    (rid : String) (total fuel : Nat) (state : WorkflowState) (node : String)
    (iter : Nat) (ops : List JobOp) (events : List Event)
    (log : List LogEntry) (state' : WorkflowState)
    (hlt : iter < maxIterations)
    (hrun : (get_node reg node).bind (fun fn => fn state) = .ok state') :
    asyncLoop g reg rid total (fuel + 1) state (some node) iter ops events log =
      asyncLoop g reg rid total fuel state' (get_next_node g node state')
        (iter + 1) (ops ++ [.update node iter total])
        (events ++ [.nodeExecuted node (iter + 1) state'.current_length
          state'.refinement_iterations])
        (log ++ [{ node := node, iteration := iter + 1 }]) := by
  simp only [asyncLoop]
  rw [if_pos hlt, hrun]
  dsimp only
  rw [Nat.add_sub_cancel]

/-- Helper: the async loop falls through to the post-loop code on an
absent successor. -/
theorem asyncLoop_step_none (g : GraphDefinition) (reg : Registry)
    (rid : String) (total fuel : Nat) (state : WorkflowState) (iter : Nat)
    (ops : List JobOp) (events : List Event) (log : List LogEntry) :
    asyncLoop g reg rid total (fuel + 1) state none iter ops events log =
      asyncFinish rid state iter ops events log := rfl

/-- Helper: the boundary registry binds `refine_summary` to `refineIncr`. -/
theorem get_node_refine : get_node loopReg "refine_summary" = .ok refineIncr :=
  rfl

/-- Helper: the boundary registry binds the loop-control node. -/
theorem get_node_check : get_node loopReg "check_length_loop" = .ok checkNode :=
  rfl

/-- Helper: `refine_summary` bumps the refinement counter of `stL j`. -/
theorem refineIncr_stL (j : Int) : refineIncr (stL j) = .ok (stL (j + 1)) := rfl

/-- Helper: the loop-control node function returns its state. -/
theorem checkNode_id (s : WorkflowState) : checkNode s = .ok s := rfl

/-- Helper: lookup-and-invoke of `refine_summary` (async form). -/
theorem arun_refine (j : Int) :
    (get_node loopReg "refine_summary").bind (fun fn => fn (stL j)) =
      .ok (stL (j + 1)) := rfl

/-- Helper: lookup-and-invoke of the loop-control node (async form). -/
theorem arun_check (j : Int) :
    (get_node loopReg "check_length_loop").bind (fun fn => fn (stL j)) =
      .ok (stL j) := rfl

/-- Helper: in `loopG`, `refine_summary` always goes to the control node. -/
theorem next_refine (s : WorkflowState) :
    get_next_node loopG "refine_summary" s = some "check_length_loop" := rfl

/-- Helper: in `loopG`, the control node is routed by the loop predicate. -/
theorem next_check (s : WorkflowState) :
    get_next_node loopG "check_length_loop" s =
      handle_loop_condition ["refine_summary"] s := rfl

/-- Helper: the loop predicate holds on `stL j` while `j < 500`. -/
theorem handle_loop_some (j : Int) (hj : j < 500) :
    handle_loop_condition ["refine_summary"] (stL j) = some "refine_summary" := by
  have hcond : (stL j).current_length > (stL j).max_length ∧
      (stL j).refinement_iterations < (stL j).max_refinement_iterations := by
    refine ⟨by norm_num [stL], ?_⟩
    simpa [stL] using hj
  simp only [handle_loop_condition]
  rw [if_pos hcond]
  simp

/-- Helper: the loop predicate fails on `stL j` once `j` reaches 500. -/
theorem handle_loop_none (j : Int) (hj : ¬ j < 500) :
    handle_loop_condition ["refine_summary"] (stL j) = none := by
  have hcond : ¬ ((stL j).current_length > (stL j).max_length ∧
      (stL j).refinement_iterations < (stL j).max_refinement_iterations) := by
    intro hc
    exact hj (by simpa [stL] using hc.2)
  simp only [handle_loop_condition]
  rw [if_neg hcond]

/-- Helper: with `n + 1` refinement rounds left (`j + (n+1) = 500`), the
synchronous loop runs exactly `2(n+1)` more node executions — a
refine/check pair per round — and returns normally with the state at
counter 500 and `2(n+1)` log entries appended. -/
theorem syncRounds :
    ∀ (n : Nat) (j : Int) (iter fuel : Nat) (log : List LogEntry),
      j + (n + 1) = 500 →
      iter + 2 * (n + 1) ≤ 1000 →
      2 * (n + 1) + 1 ≤ fuel →
      ∃ log2,
        execLoop loopG loopReg fuel (stL j) (some "refine_summary") iter log =
          .ok (stL 500) log2 ∧
        log2.length = log.length + 2 * (n + 1) := by
  intro n
  have hm : maxIterations = 1000 := rfl
  induction n with
  | zero =>
    intro j iter fuel log hj hiter hfuel
    obtain ⟨f, rfl⟩ : ∃ f, fuel = f + 1 + 1 + 1 := ⟨fuel - 3, by omega⟩
    rw [execLoop_step_ok loopG loopReg (f + 1 + 1) (stL j) "refine_summary"
      iter log refineIncr (stL (j + 1)) (by omega) get_node_refine
      (refineIncr_stL j)]
    rw [next_refine]
    rw [execLoop_step_ok loopG loopReg (f + 1) (stL (j + 1))
      "check_length_loop" (iter + 1) _ checkNode (stL (j + 1)) (by omega)
      get_node_check (checkNode_id _)]
    rw [next_check]
    rw [handle_loop_none (j + 1) (by omega)]
    rw [execLoop_step_none]
    have hjeq : stL (j + 1) = stL 500 := by
      have hx : j + 1 = (500 : Int) := by omega
      rw [hx]
    rw [hjeq]
    refine ⟨_, rfl, ?_⟩
    simp only [List.length_append, List.length_cons, List.length_nil]
    try omega
  | succ n ih =>
    intro j iter fuel log hj hiter hfuel
    obtain ⟨f, rfl⟩ : ∃ f, fuel = f + 1 + 1 + 1 := ⟨fuel - 3, by omega⟩
    rw [execLoop_step_ok loopG loopReg (f + 1 + 1) (stL j) "refine_summary"
      iter log refineIncr (stL (j + 1)) (by omega) get_node_refine
      (refineIncr_stL j)]
    rw [next_refine]
    rw [execLoop_step_ok loopG loopReg (f + 1) (stL (j + 1))
      "check_length_loop" (iter + 1) _ checkNode (stL (j + 1)) (by omega)
      get_node_check (checkNode_id _)]
    rw [next_check]
    rw [handle_loop_some (j + 1) (by omega)]
    obtain ⟨log2, heq, hlen⟩ := ih (j + 1) (iter + 1 + 1) (f + 1)
      ((log ++ [{ node := "refine_summary", iteration := iter + 1 }]) ++
        [{ node := "check_length_loop", iteration := iter + 1 + 1 }])
      (by omega) (by omega) (by omega)
    refine ⟨log2, heq, ?_⟩
    simp only [List.length_append, List.length_cons, List.length_nil] at hlen
    omega

/-- Helper: with `n + 1` refinement rounds left ending exactly at the
1000th execution, the async loop exits by `current_node is None` with the
counter at 1000, and the post-loop check then raises the
exceeded-iterations error. -/
theorem asyncRounds :
    ∀ (n : Nat) (j : Int) (iter fuel : Nat) (rid : String) (total : Nat)
      (ops : List JobOp) (events : List Event) (log : List LogEntry),
      j + (n + 1) = 500 →
      iter + 2 * (n + 1) = 1000 →
      2 * (n + 1) + 1 ≤ fuel →
      raisedMsg (asyncLoop loopG loopReg rid total fuel (stL j)
          (some "refine_summary") iter ops events log).outcome =
        some "Execution exceeded maximum iterations (1000)" := by
  intro n
  have hm : maxIterations = 1000 := rfl
  induction n with
  | zero =>
    intro j iter fuel rid total ops events log hj hiter hfuel
    obtain ⟨f, rfl⟩ : ∃ f, fuel = f + 1 + 1 + 1 := ⟨fuel - 3, by omega⟩
    rw [asyncLoop_step_ok loopG loopReg rid total (f + 1 + 1) (stL j)
      "refine_summary" iter ops events log (stL (j + 1)) (by omega)
      (arun_refine j)]
    rw [next_refine]
    rw [asyncLoop_step_ok loopG loopReg rid total (f + 1) (stL (j + 1))
      "check_length_loop" (iter + 1) _ _ _ (stL (j + 1)) (by omega)
      (arun_check (j + 1))]
    rw [next_check]
    rw [handle_loop_none (j + 1) (by omega)]
    rw [asyncLoop_step_none]
    simp only [asyncFinish]
    rw [if_pos (show maxIterations ≤ iter + 1 + 1 by omega)]
    rfl
  | succ n ih =>
    intro j iter fuel rid total ops events log hj hiter hfuel
    obtain ⟨f, rfl⟩ : ∃ f, fuel = f + 1 + 1 + 1 := ⟨fuel - 3, by omega⟩
    rw [asyncLoop_step_ok loopG loopReg rid total (f + 1 + 1) (stL j)
      "refine_summary" iter ops events log (stL (j + 1)) (by omega)
      (arun_refine j)]
    rw [next_refine]
    rw [asyncLoop_step_ok loopG loopReg rid total (f + 1) (stL (j + 1))
      "check_length_loop" (iter + 1) _ _ _ (stL (j + 1)) (by omega)
      (arun_check (j + 1))]
    rw [next_check]
    rw [handle_loop_some (j + 1) (by omega)]
    exact ih (j + 1) (iter + 1 + 1) (f + 1) rid total _ _ _
      (by omega) (by omega) (by omega)

/-- C3: the claim fails against the code at the ceiling boundary.  Over
the two-node refinement loop with 500 refinements, the traversal reaches
normal termination — successor resolution returns no next node — at
exactly the 1000th node execution, and the synchronous engine returns
successfully with a 1000-entry log (first conjunct).  The async path on
the same graph, registry and initial state instead raises the
iteration-ceiling error (second conjunct), because its post-loop check
`iteration_count >= max_iterations` fires even though the loop exited by
`current_node is None`.  On that branch the run is never completed: the
third conjunct shows the branch appends exactly two mark-failed calls
and two error events and no completion event, and the fourth shows any
call sequence ending in mark-failed leaves the job FAILED. -/
theorem C3_boundary_run_marked_failed :
    (∃ s2 log2, boundarySync = .ok s2 log2 ∧ log2.length = 1000) ∧
    raisedMsg boundaryRun.outcome =
      some "Execution exceeded maximum iterations (1000)" ∧
    (∀ (run_id : String) (st : WorkflowState) (iter : Nat)
      (ops : List JobOp) (events : List Event) (log : List LogEntry),
      maxIterations ≤ iter →
      (asyncFinish run_id st iter ops events log).jobOps =
        ops ++ [.fail "Execution exceeded maximum iterations (1000)",
          .fail "Async execution failed: Execution exceeded maximum iterations (1000)"] ∧
      raisedMsg (asyncFinish run_id st iter ops events log).outcome =
        some "Execution exceeded maximum iterations (1000)" ∧
      (asyncFinish run_id st iter ops events log).events =
        events ++ [.errorEv "Execution exceeded maximum iterations (1000)",
          .errorEv "Async execution failed: Execution exceeded maximum iterations (1000)"]) ∧
    (∀ (j : JobInfo) (ops : List JobOp) (m1 m2 : String),
      (applyOps j (ops ++ [.fail m1, .fail m2])).status = .failed) := by
  have hm : maxIterations = 1000 := rfl
  refine ⟨?_, ?_, ?_, ?_⟩
  · obtain ⟨log2, heq, hlen⟩ := syncRounds 499 0 0 (maxIterations + 1) []
      (by omega) (by omega) (by omega)
    refine ⟨stL 500, log2, heq, ?_⟩
    simp only [List.length_nil] at hlen
    omega
  · exact asyncRounds 499 0 0 (maxIterations + 1) "r1" loopG.nodes.length
      [.update "starting" 0 loopG.nodes.length] [] []
      (by omega) (by omega) (by omega)
  · intro run_id st iter ops events log h
    simp only [asyncFinish, if_pos h]
    exact ⟨rfl, rfl, rfl⟩
  · intro j ops m1 m2
    simp [applyOps, List.foldl_append, applyOp, mark_failed]

/-- Witness for C3's quantified conjuncts at concrete inputs: the
post-loop failure branch at counter 1000 appends the two mark-failed
calls, and a record with those calls applied reports FAILED. -/
theorem C3_boundary_run_marked_failed_witness :
    (asyncFinish "r" {} 1000 [] [] []).jobOps =
      [.fail "Execution exceeded maximum iterations (1000)",
       .fail "Async execution failed: Execution exceeded maximum iterations (1000)"] ∧
    (applyOps (initJob "r" "g")
      ([] ++ [.fail "m1", .fail "m2"])).status = .failed := by
  constructor
  · exact ((C3_boundary_run_marked_failed.2.2.1 "r" {} 1000 [] [] []
      (by decide)).1).trans (by decide)
  · exact C3_boundary_run_marked_failed.2.2.2 (initJob "r" "g") [] "m1" "m2"

end Engine
